import Mathlib

/-!
Verification development for the dashboard generator of this repository
(source: src/generate_dashboard.py).

Modelling conventions:
- A CSV row, after the loader has resolved which header name holds each
  semantic field, is a structure whose fields are `Option String`:
  `none` models a Python `None` value (absent key or short row), `some s`
  models the string `s`.
- Python `float` values are modelled as exact rationals; `float(...)`
  parsing is modelled by `pyFloat`, which accepts optionally signed decimal
  literals with an optional fraction and exponent (special values such as
  inf/nan and underscore digit grouping are outside the model).
- Python `int(...)` parsing is modelled by `pyInt` for optionally signed
  ASCII decimal digit strings.
- Python `round(x, n)` is modelled by `pyRound` (round half to even on the
  exact rational, which agrees with CPython on values that are exactly
  representable).
- Python dicts keyed by UAI are modelled as association lists with
  insert-or-replace-in-place (`aupsert`), which preserves insertion order
  exactly as CPython dicts do; `alookup` models `dict.get`.
- `str.upper` / `str.lower` / `str.strip` / `str.title` are modelled over
  ASCII via `Char.toUpper` / `Char.toLower` / whitespace dropping.
-/

/-- ASCII model of Python str.upper. -/
def sUpper (s : String) : String := String.mk (s.data.map Char.toUpper)

/-- ASCII model of Python str.lower. -/
def sLower (s : String) : String := String.mk (s.data.map Char.toLower)

/-- Model of Python str.strip (drop leading and trailing whitespace). -/
def sTrim (s : String) : String :=
  String.mk (((s.data.dropWhile Char.isWhitespace).reverse.dropWhile Char.isWhitespace).reverse)

/-- Model of Python s.startswith(p). -/
def sStartsWith (s p : String) : Bool := p.data.isPrefixOf s.data

/-- Model of the Python format spec 0>w (pad on the left with zeros, no sign handling). -/
def padZeroFmt (s : String) (w : Nat) : String :=
  if w ≤ s.length then s else String.mk (List.replicate (w - s.length) '0' ++ s.data)

/-- Model of Python str.zfill(w): zeros are inserted after a leading sign. -/
def pyZfill (s : String) (w : Nat) : String :=
  if w ≤ s.length then s
  else
    match s.data with
    | c :: rest =>
      if c = '+' ∨ c = '-' then String.mk (c :: (List.replicate (w - s.length) '0' ++ rest))
      else String.mk (List.replicate (w - s.length) '0' ++ s.data)
    | [] => String.mk (List.replicate w '0')

/-- Numeric value of a list of ASCII digits. -/
def digitsVal (l : List Char) : Nat := l.foldl (fun a c => a * 10 + (c.toNat - 48)) 0

/-- True when the list is a nonempty run of ASCII digits. -/
def isDigits (l : List Char) : Bool := !l.isEmpty && l.all Char.isDigit

/-- Core of `pyInt`: optionally signed nonempty digit string. -/
def pyIntCore : List Char → Option Int
  | '+' :: rest => if isDigits rest then some (digitsVal rest) else none
  | '-' :: rest => if isDigits rest then some (-(digitsVal rest : Int)) else none
  | l => if isDigits l then some (digitsVal l) else none

/-- Model of Python int(s) on a string: whitespace is stripped, then an
optionally signed decimal literal is required; any other input raises
ValueError, modelled as `none`. -/
def pyInt (s : String) : Option Int := pyIntCore (sTrim s).data

/-- Split a leading sign off a character list; `true` means negative. -/
def signSplit : List Char → Bool × List Char
  | '+' :: rest => (false, rest)
  | '-' :: rest => (true, rest)
  | l => (false, l)

/-- Split a character list at the first e or E (mantissa, exponent-part). -/
def splitExp : List Char → List Char × Option (List Char)
  | [] => ([], none)
  | c :: rest =>
    if c = 'e' ∨ c = 'E' then ([], some rest)
    else
      let p := splitExp rest
      (c :: p.1, p.2)

/-- Split a character list at the first dot (integer part, fraction part). -/
def splitDot : List Char → List Char × Option (List Char)
  | [] => ([], none)
  | c :: rest =>
    if c = '.' then ([], some rest)
    else
      let p := splitDot rest
      (c :: p.1, p.2)

/-- Parse an unsigned decimal literal with optional fraction and exponent. -/
def parseUnsignedDec (l : List Char) : Option Rat :=
  let me := splitExp l
  let ipfp := splitDot me.1
  let fpl := ipfp.2.getD []
  if ipfp.1.isEmpty && fpl.isEmpty then none
  else if !(ipfp.1.all Char.isDigit) || !(fpl.all Char.isDigit) then none
  else
    let base : Rat := (digitsVal (ipfp.1 ++ fpl) : Rat) / ((10 : Rat) ^ fpl.length)
    match me.2 with
    | none => some base
    | some e =>
      let se := signSplit e
      if isDigits se.2 then
        some (if se.1 then base / (10 : Rat) ^ digitsVal se.2
              else base * (10 : Rat) ^ digitsVal se.2)
      else none

/-- Model of Python float(s) on a string, as an exact rational; a value
that raises ValueError is `none`. -/
def pyFloat (s : String) : Option Rat :=
  let t := signSplit (sTrim s).data
  (parseUnsignedDec t.2).map (fun q => if t.1 then -q else q)

/-- Round a rational to the nearest integer, ties to even (CPython round). -/
def roundHalfEven (q : Rat) : Int :=
  let f := ⌊q⌋
  if q - f < 1/2 then f
  else if 1/2 < q - f then f + 1
  else if f % 2 = 0 then f else f + 1

/-- Model of Python round(q, n). -/
def pyRound (q : Rat) (n : Nat) : Rat :=
  ((roundHalfEven (q * (10 : Rat) ^ n) : Int) : Rat) / (10 : Rat) ^ n

/-- Python truthiness filter on an optional string: None and the empty
string collapse to `none`. -/
def truthyOpt : Option String → Option String
  | none => none
  | some s => if s = "" then none else some s

/-- Python truthiness test on an optional string. -/
def truthyS : Option String → Bool
  | none => false
  | some s => decide (s ≠ "")

/-- Python `a or b` where both sides are optional strings. -/
def pyOrS (a b : Option String) : Option String :=
  match a with
  | none => b
  | some s => if s = "" then b else some s

/-- Lexicographic less-or-equal on character lists by code point, the
order Python uses to compare strings. -/
def charListLe : List Char → List Char → Bool
  | [], _ => true
  | _ :: _, [] => false
  | a :: as, b :: bs =>
    if a.toNat < b.toNat then true
    else if b.toNat < a.toNat then false
    else charListLe as bs

/-- Model of Python string comparison a <= b (code-point lexicographic). -/
def pyStrLe (a b : String) : Bool := charListLe a.data b.data

/-- Python min over a list (None for an empty list). -/
def listMin : List Rat → Option Rat
  | [] => none
  | x :: xs => some (xs.foldl min x)

/-- Python max over a list (None for an empty list). -/
def listMax : List Rat → Option Rat
  | [] => none
  | x :: xs => some (xs.foldl max x)

/-- Model of dict.get on an association list. -/
def alookup {β : Type} : List (String × β) → String → Option β
  | [], _ => none
  | p :: t, k => if p.1 = k then some p.2 else alookup t k

/-- Model of dict item assignment: replace in place, or append. -/
def aupsert {β : Type} : List (String × β) → String → β → List (String × β)
  | [], k, v => [(k, v)]
  | p :: t, k, v => if p.1 = k then (k, v) :: t else p :: aupsert t k v

/-- A headcount (effectifs) CSV row, fields already resolved through the
column-alias table of load_effectifs_latest. -/
structure EffRow where
  year : Option String
  dep : Option String
  acad : Option String
  etype : Option String
  secteur : Option String
  uai : Option String
  eleves : Option String
  commune : Option String
  segpa : Option String
  ulis : Option String
deriving DecidableEq

/-- A headcount file: its rows plus whether the Segpa / ULIS columns were
found in the header (segpa_key / ulis_key being non-None). -/
structure EffFile where
  rows : List EffRow
  hasSegpaKey : Bool
  hasUlisKey : Bool
deriving DecidableEq

/-- The per-UAI record stored by load_effectifs_latest. -/
structure EffRec where
  year : String
  eleves : Option Int
  commune : Option String
  segpa : Option Int
  ulis : Option Int
deriving DecidableEq

/-- The year field read with r.get(year_key, ""). -/
def yearOf (r : EffRow) : String := r.year.getD ""

/-- The UAI after the `if not uai: continue` truthiness test. -/
def uaiOf (r : EffRow) : Option String := truthyOpt r.uai

/-- Model of `int(r.get(k) or 0)` guarded by try/except: a None or empty
field becomes int(0) = 0; a nonempty non-numeric field raises and yields
None. -/
def pyIntOr0 : Option String → Option Int
  | none => some 0
  | some s => if s = "" then some 0 else pyInt s

/-- The four row filters of load_effectifs_latest: department code
(both sides zero-padded to 3), academy (case-insensitive), establishment
type COLLEGE, sector public. -/
def effPasses (dep acad : String) (r : EffRow) : Bool :=
  decide (pyZfill (r.dep.getD "") 3 = padZeroFmt dep 3) &&
  decide (sUpper (r.acad.getD "") = sUpper acad) &&
  decide (sUpper (sTrim (r.etype.getD "")) = "COLLEGE") &&
  decide (sLower (sTrim (r.secteur.getD "")) = "public")

/-- The record built by load_effectifs_latest for a retained row. -/
def mkEffRec (hasS hasU : Bool) (r : EffRow) : EffRec :=
  { year := yearOf r
  , eleves := pyIntOr0 r.eleves
  , commune := r.commune
  , segpa := if hasS then pyIntOr0 r.segpa else none
  , ulis := if hasU then pyIntOr0 r.ulis else none }

/-- One iteration of the row loop of load_effectifs_latest. -/
def effStep (hasS hasU : Bool) (dep acad : String)
    (m : List (String × EffRec)) (r : EffRow) : List (String × EffRec) :=
  if effPasses dep acad r then
    match uaiOf r with
    | none => m
    | some u =>
      match alookup m u with
      | some prev =>
        if pyStrLe (yearOf r) prev.year then m else aupsert m u (mkEffRec hasS hasU r)
      | none => aupsert m u (mkEffRec hasS hasU r)
  else m

/-- load_effectifs_latest: fold the row loop over the file. -/
def loadEffectifsLatest (f : EffFile) (dep acad : String) : List (String × EffRec) :=
  f.rows.foldl (effStep f.hasSegpaKey f.hasUlisKey dep acad) []

/-- The rows of a file that pass the filters and carry the given (truthy)
UAI: the candidate rows for that school identifier. -/
def effCands (dep acad : String) (rows : List EffRow) (u : String) : List EffRow :=
  rows.filter (fun r => effPasses dep acad r && decide (uaiOf r = some u))

/-- The year strings of the candidate rows for a school identifier. -/
def candYears (dep acad : String) (rows : List EffRow) (u : String) : List String :=
  (effCands dep acad rows u).map yearOf

/-- An indicator CSV row (load_indicateurs / merge_data fields). -/
structure IndRow where
  dep : Option String
  acad : Option String
  secteur : Option String
  nature : Option String
  uai : Option String
  nom : Option String
  aed : Option String
  etpEns : Option String
  annee1 : Option String
  annee2 : Option String
  annee3 : Option String
deriving DecidableEq

/-- The four row filters of load_indicateurs: department code by exact
string comparison against the raw field, academy case-insensitively,
sector public, establishment nature starting with the given string. -/
def indPasses (dep acad npre : String) (r : IndRow) : Bool :=
  decide (r.dep = some dep) &&
  decide (sUpper (r.acad.getD "") = sUpper acad) &&
  decide (sLower (sTrim (r.secteur.getD "")) = "public") &&
  sStartsWith (sLower (sTrim (r.nature.getD ""))) (sLower npre)

/-- load_indicateurs: keep the qualifying rows, unmodified and in order. -/
def loadIndicateurs (rows : List IndRow) (dep acad npre : String) : List IndRow :=
  rows.filter (indPasses dep acad npre)

/-- A social-index (IPS) CSV row, fields resolved through the alias table. -/
structure IpsRow where
  dep : Option String
  acad : Option String
  secteur : Option String
  uai : Option String
  ips : Option String
  ecart : Option String
  year : Option String
deriving DecidableEq

/-- The per-UAI record stored by load_ips. -/
structure IpsRec where
  ips : Option Rat
  ecart : Option Rat
  year : Option String
deriving DecidableEq

/-- Model of `float(v) if v else None` under try/except: None or empty
gives None, a non-numeric string raises and gives None. -/
def parseFloatField : Option String → Option Rat
  | none => none
  | some s => if s = "" then none else pyFloat s

/-- The row filters of load_ips: department code equal to the parameter
zero-filled to 2 or to 3 digits, academy case-insensitively, and sector
not starting with priv. -/
def ipsPasses (dep acad : String) (r : IpsRow) : Bool :=
  (decide (r.dep.getD "" = pyZfill dep 2) || decide (r.dep.getD "" = pyZfill dep 3)) &&
  decide (sUpper (r.acad.getD "") = sUpper acad) &&
  !(sStartsWith (sLower (sTrim (r.secteur.getD ""))) "priv")

/-- One iteration of the row loop of load_ips. -/
def ipsStep (dep acad : String) (m : List (String × IpsRec)) (r : IpsRow) :
    List (String × IpsRec) :=
  if ipsPasses dep acad r then
    match truthyOpt r.uai with
    | none => m
    | some u =>
      aupsert m u { ips := parseFloatField r.ips, ecart := parseFloatField r.ecart, year := r.year }
  else m

/-- load_ips: an absent path gives an empty mapping, otherwise fold the
row loop over the file. -/
def loadIps (file : Option (List IpsRow)) (dep acad : String) : List (String × IpsRec) :=
  match file with
  | none => []
  | some rows => rows.foldl (ipsStep dep acad) []

/-- The staffing FTE of merge_data: `float(v) if v else None` with
ValueError / KeyError caught. -/
def aedOf (r : IndRow) : Option Rat := parseFloatField r.aed

/-- The teaching FTE of merge_data: `float(r.get(k) or 0)` with
ValueError / TypeError caught, so a None or empty field becomes 0.0 and a
nonempty non-numeric field becomes None. -/
def etpEnsOf (r : IndRow) : Option Rat :=
  match r.etpEns with
  | none => some 0
  | some s => if s = "" then some 0 else pyFloat s

/-- ASCII model of Python str.title: a letter after a non-letter is
uppercased, a letter after a letter is lowercased. -/
def titleAux : Bool → List Char → List Char
  | _, [] => []
  | prevAlpha, c :: rest =>
    (if prevAlpha then c.toLower else c.toUpper) :: titleAux c.isAlpha rest

/-- ASCII model of Python str.title. -/
def pyTitle (s : String) : String := String.mk (titleAux false s.data)

/-- One merged record, as built by merge_data for one indicator row. -/
structure MergedRec where
  uai : Option String
  nom : String
  aed_etp : Option Rat
  etp_enseignants : Option Rat
  eleves : Option Int
  secteur : String
  effectifs_annee : Option String
  commune : Option String
  segpa : Option Int
  ulis : Option Int
  ips : Option Rat
  ips_ecart : Option Rat
deriving DecidableEq

/-- dict.get keyed by an optional UAI: a None key finds nothing. -/
def optLookup {β : Type} (m : List (String × β)) : Option String → Option β
  | none => none
  | some u => alookup m u

/-- The merged record merge_data appends for one indicator row. -/
def mkMerged (emap : List (String × EffRec)) (imap : List (String × IpsRec))
    (r : IndRow) : MergedRec :=
  let eff := optLookup emap r.uai
  let ips := optLookup imap r.uai
  { uai := r.uai
  , nom := pyTitle (r.nom.getD "")
  , aed_etp := aedOf r
  , etp_enseignants := etpEnsOf r
  , eleves := eff.bind EffRec.eleves
  , secteur := r.secteur.getD ""
  , effectifs_annee := eff.map EffRec.year
  , commune := eff.bind EffRec.commune
  , segpa := eff.bind EffRec.segpa
  , ulis := eff.bind EffRec.ulis
  , ips := ips.bind IpsRec.ips
  , ips_ecart := ips.bind IpsRec.ecart }

/-- The year or-chain an indicator row offers merge_data. -/
def yrChain (r : IndRow) : Option String := pyOrS r.annee1 (pyOrS r.annee2 r.annee3)

/-- The indicator-year scan of merge_data: the loop keeps assigning and
breaks at the first truthy value, so the result is the first truthy
chain value, else the last assigned one. -/
def indicYearOf : List IndRow → Option String
  | [] => none
  | [r] => yrChain r
  | r :: r2 :: rest => if truthyS (yrChain r) then yrChain r else indicYearOf (r2 :: rest)

/-- The headcount-year scan of merge_data over stored year strings. -/
def yearScanS : List String → Option String
  | [] => none
  | [y] => some y
  | y :: y2 :: rest => if y = "" then yearScanS (y2 :: rest) else some y

/-- The social-index-year scan of merge_data over stored optional years. -/
def yearScanO : List (Option String) → Option String
  | [] => none
  | [o] => o
  | o :: o2 :: rest => if truthyS o then o else yearScanO (o2 :: rest)

/-- eff_year of merge_data. -/
def effYearOf (m : List (String × EffRec)) : Option String :=
  yearScanS (m.map (fun p => p.2.year))

/-- ips_year of merge_data. -/
def ipsYearOf (m : List (String × IpsRec)) : Option String :=
  yearScanO (m.map (fun p => p.2.year))

/-- The summary dict built by merge_data, one field per dict key. -/
structure Summary where
  nb_colleges : Nat
  aed_total : Option Rat
  aed_moyen : Option Rat
  aed_min : Option Rat
  aed_max : Option Rat
  etp_ens_total : Option Rat
  etp_ens_moyen : Option Rat
  eleves_total : Option Int
  segpa_total : Option Int
  ulis_total : Option Int
  ips_moyen : Option Rat
  ips_min : Option Rat
  ips_max : Option Rat
  annee_indic : Option String
  annee_eff : Option String
  annee_ips : Option String
deriving DecidableEq

/-- valid_aed: the non-null staffing FTE values, in record order. -/
def validAed (records : List MergedRec) : List Rat := records.filterMap MergedRec.aed_etp

/-- valid_etp_ens: the non-null teaching FTE values. -/
def validEtpEns (records : List MergedRec) : List Rat :=
  records.filterMap MergedRec.etp_enseignants

/-- valid_eleves: the non-null student counts. -/
def validEleves (records : List MergedRec) : List Int := records.filterMap MergedRec.eleves

/-- valid_segpa: the non-null Segpa counts. -/
def validSegpa (records : List MergedRec) : List Int := records.filterMap MergedRec.segpa

/-- valid_ulis: the non-null ULIS counts. -/
def validUlis (records : List MergedRec) : List Int := records.filterMap MergedRec.ulis

/-- valid_ips: the non-null social-index values. -/
def validIps (records : List MergedRec) : List Rat := records.filterMap MergedRec.ips

/-- The summary dict of merge_data. -/
def computeSummary (records : List MergedRec) (iY eY pY : Option String) : Summary :=
  let va := validAed records
  let ve := validEtpEns records
  let vl := validEleves records
  let vs := validSegpa records
  let vu := validUlis records
  let vi := validIps records
  { nb_colleges := records.length
  , aed_total := if va.isEmpty then none else some (pyRound va.sum 2)
  , aed_moyen := if va.isEmpty then none else some (pyRound (va.sum / (va.length : Rat)) 2)
  , aed_min := (listMin va).map (fun q => pyRound q 2)
  , aed_max := (listMax va).map (fun q => pyRound q 2)
  , etp_ens_total := if ve.isEmpty then none else some (pyRound ve.sum 2)
  , etp_ens_moyen := if ve.isEmpty then none else some (pyRound (ve.sum / (ve.length : Rat)) 2)
  , eleves_total := if vl.isEmpty then none else some vl.sum
  , segpa_total := if vs.isEmpty then none else some vs.sum
  , ulis_total := if vu.isEmpty then none else some vu.sum
  , ips_moyen := if vi.isEmpty then none else some (pyRound (vi.sum / (vi.length : Rat)) 1)
  , ips_min := (listMin vi).map (fun q => pyRound q 1)
  , ips_max := (listMax vi).map (fun q => pyRound q 1)
  , annee_indic := iY
  , annee_eff := eY
  , annee_ips := pY }

/-- merge_data: one merged record per indicator row, plus the summary. -/
def mergeData (ind : List IndRow) (emap : List (String × EffRec))
    (imap : List (String × IpsRec)) : List MergedRec × Summary :=
  let records := ind.map (mkMerged emap imap)
  (records, computeSummary records (indicYearOf ind) (effYearOf emap) (ipsYearOf imap))

/-- The per-row students-per-staffing-FTE ratio of the rendered table
(render_html baseRows): defined only when both values are numbers and the
staffing FTE is strictly positive. -/
def ratioOf (rec : MergedRec) : Option Rat :=
  match rec.eleves, rec.aed_etp with
  | some e, some a => if 0 < a then some ((e : Rat) / a) else none
  | _, _ => none

/-- Concrete headcount rows and file for exercising claim C1: two
qualifying rows for the same UAI with years 2023 and 2024. -/
def w1rowA : EffRow :=
  ⟨some "2023", some "044", some "NANTES", some "COLLEGE", some "PUBLIC",
   some "0440010B", some "430", some "NANTES", some "10", some "5"⟩

/-- Second C1 row, the more recent one. -/
def w1rowB : EffRow :=
  ⟨some "2024", some "44", some "nantes", some "college", some "public",
   some "0440010B", some "450", some "NANTES", some "12", some "6"⟩

/-- C1 witness file. -/
def w1file : EffFile := ⟨[w1rowA, w1rowB], true, true⟩

/-- The record the loader retains from w1file. -/
def w1rec : EffRec := ⟨"2024", some 450, some "NANTES", some 12, some 6⟩

/-- C2 counterexample row: qualifying, with an empty student-count field. -/
def c2row : EffRow :=
  ⟨some "2023", some "044", some "NANTES", some "COLLEGE", some "PUBLIC",
   some "0440001A", some "", some "NANTES", some "12", none⟩

/-- C2 counterexample file. -/
def c2file : EffFile := ⟨[c2row], true, true⟩

/-- C2 witness row: empty student count, non-numeric Segpa count. -/
def w2row : EffRow :=
  ⟨some "2024", some "44", some "NANTES", some "COLLEGE", some "public",
   some "0442000Z", some "", some "X", some "abc", some "7"⟩

/-- C2 witness file. -/
def w2file : EffFile := ⟨[w2row], true, true⟩

/-- The record the loader retains from w2file. -/
def w2rec : EffRec := ⟨"2024", some 0, some "X", none, some 7⟩

/-- C3 counterexample indicator row: teaching-FTE field present but empty. -/
def c3row : IndRow :=
  ⟨some "44", some "NANTES", some "public", some "college", some "0441234A",
   some "x", some "3.5", some "", some "2024", none, none⟩

/-- C3 witness indicator row: numeric staffing FTE, non-numeric teaching FTE. -/
def w3row : IndRow :=
  ⟨some "44", some "NANTES", some "public", some "college", some "0441234A",
   some "x", some "12.5", some "abc", some "2024", none, none⟩

/-- C4 counterexample indicator row: staffing FTE 0.125, a value whose
2-decimal rounding differs from itself. -/
def c4row : IndRow :=
  ⟨some "44", some "NANTES", some "public", some "college", some "0449999Z",
   some "x", some "0.125", some "", some "2024", none, none⟩

/-- C4 witness merged record with staffing FTE 0.125. -/
def w4rec : MergedRec :=
  ⟨some "X", "", some (1/8), some 2, some 100, "", none, none, none, none, none, none⟩

/-- C5 indicator row whose department code is the 3-digit form 044. -/
def c5ind : IndRow :=
  ⟨some "044", some "NANTES", some "public", some "college", some "0440001A",
   some "x", none, none, none, none, none⟩

/-- C5 headcount row with the same 3-digit department code 044. -/
def c5eff : EffRow :=
  ⟨some "2024", some "044", some "NANTES", some "COLLEGE", some "public",
   some "0440001A", some "300", none, none, none⟩

/-- C5 headcount file. -/
def c5file : EffFile := ⟨[c5eff], false, false⟩

/-- C5 witness indicator row with department code exactly 44. -/
def w5ind : IndRow :=
  ⟨some "44", some "NANTES", some "public", some "college", some "0440002B",
   some "x", none, none, none, none, none⟩

/-- C6 witness merged record: 300 students, staffing FTE 12.5. -/
def w6rec : MergedRec :=
  ⟨some "X", "", some (25/2), none, some 300, "", none, none, none, none, none, none⟩

/-- C9 indicator row used twice to produce a duplicated identifier. -/
def c9row : IndRow :=
  ⟨some "44", some "NANTES", some "public", some "college", some "0440002B",
   some "x", none, none, none, none, none⟩

/-- C9 witness indicator rows with distinct identifiers. -/
def w9rowA : IndRow :=
  ⟨some "44", some "NANTES", some "public", some "college", some "0440001A",
   some "x", none, none, none, none, none⟩

/-- Second C9 witness indicator row. -/
def w9rowB : IndRow :=
  ⟨some "44", some "NANTES", some "public", some "college", some "0440002B",
   some "x", none, none, none, none, none⟩

/-- C10 witness headcount row with a nonempty UAI. -/
def w10row : EffRow :=
  ⟨some "2024", some "44", some "NANTES", some "COLLEGE", some "public",
   some "0443000C", some "100", none, none, none⟩

/-- C10 witness file. -/
def w10file : EffFile := ⟨[w10row], true, true⟩

/-- The record the loader retains from w10file. -/
def w10rec : EffRec := ⟨"2024", some 100, none, some 0, some 0⟩

/-- C10 row whose UAI field is the empty string. -/
def w10bad : EffRow :=
  ⟨some "2024", some "44", some "NANTES", some "COLLEGE", some "public",
   some "", some "1", none, none, none⟩

theorem alookup_aupsert_self {β : Type} (m : List (String × β)) (k : String) (v : β) :
    alookup (aupsert m k v) k = some v := by
  induction m with
  | nil => simp [aupsert, alookup]
  | cons p t ih =>
    by_cases h : p.1 = k
    · simp [aupsert, alookup, h]
    · simp [aupsert, alookup, h, ih]

theorem alookup_aupsert_ne {β : Type} (m : List (String × β)) (k u : String) (v : β)
    (h : u ≠ k) : alookup (aupsert m k v) u = alookup m u := by
  induction m with
  | nil => simp [aupsert, alookup, Ne.symm h]
  | cons p t ih =>
    by_cases hp : p.1 = k
    · simp [aupsert, alookup, hp, Ne.symm h]
    · simp only [aupsert, alookup, if_neg hp]
      split <;> simp [ih]

theorem mem_aupsert {β : Type} (m : List (String × β)) (k : String) (v : β)
    (p : String × β) (hp : p ∈ aupsert m k v) : p = (k, v) ∨ p ∈ m := by
  induction m with
  | nil => simpa [aupsert] using hp
  | cons q t ih =>
    by_cases h : q.1 = k
    · simp only [aupsert, if_pos h, List.mem_cons] at hp
      rcases hp with hp | hp
      · exact Or.inl hp
      · exact Or.inr (List.mem_cons_of_mem _ hp)
    · simp only [aupsert, if_neg h, List.mem_cons] at hp
      rcases hp with hp | hp
      · exact Or.inr (hp ▸ List.mem_cons_self q t)
      · rcases ih hp with hp' | hp'
        · exact Or.inl hp'
        · exact Or.inr (List.mem_cons_of_mem _ hp')

theorem map_fst_aupsert_mem {β : Type} (m : List (String × β)) (k : String) (v : β)
    (a : String) (ha : a ∈ (aupsert m k v).map Prod.fst) :
    a = k ∨ a ∈ m.map Prod.fst := by
  rcases List.mem_map.mp ha with ⟨p, hp, rfl⟩
  rcases mem_aupsert m k v p hp with rfl | hp'
  · exact Or.inl rfl
  · exact Or.inr (List.mem_map_of_mem Prod.fst hp')

theorem nodup_aupsert {β : Type} (m : List (String × β)) (k : String) (v : β)
    (h : (m.map Prod.fst).Nodup) : ((aupsert m k v).map Prod.fst).Nodup := by
  induction m with
  | nil => simp [aupsert]
  | cons q t ih =>
    rw [List.map_cons, List.nodup_cons] at h
    by_cases hq : q.1 = k
    · simp only [aupsert, if_pos hq, List.map_cons, List.nodup_cons]
      exact ⟨hq ▸ h.1, h.2⟩
    · simp only [aupsert, if_neg hq, List.map_cons, List.nodup_cons]
      refine ⟨?_, ih h.2⟩
      intro hmem
      rcases map_fst_aupsert_mem t k v q.1 hmem with h1 | h1
      · exact hq h1
      · exact h.1 h1

theorem effStep_nodup (hasS hasU : Bool) (dep acad : String)
    (m : List (String × EffRec)) (r : EffRow) (h : (m.map Prod.fst).Nodup) :
    ((effStep hasS hasU dep acad m r).map Prod.fst).Nodup := by
  cases hP : effPasses dep acad r with
  | false => simpa [effStep, hP] using h
  | true =>
    cases hU : uaiOf r with
    | none => simpa [effStep, hP, hU] using h
    | some u =>
      cases hL : alookup m u with
      | none => simpa [effStep, hP, hU, hL] using nodup_aupsert m u _ h
      | some prev =>
        cases hy : pyStrLe (yearOf r) prev.year with
        | true => simpa [effStep, hP, hU, hL, hy] using h
        | false => simpa [effStep, hP, hU, hL, hy] using nodup_aupsert m u _ h

theorem effStep_alookup_other (hasS hasU : Bool) (dep acad : String)
    (m : List (String × EffRec)) (r : EffRow) (u : String)
    (h : ¬ (effPasses dep acad r = true ∧ uaiOf r = some u)) :
    alookup (effStep hasS hasU dep acad m r) u = alookup m u := by
  cases hP : effPasses dep acad r with
  | false => simp [effStep, hP]
  | true =>
    cases hU : uaiOf r with
    | none => simp [effStep, hP, hU]
    | some u2 =>
      have hne : u ≠ u2 := by
        rintro rfl
        exact h ⟨hP, hU⟩
      cases hL : alookup m u2 with
      | none => simp [effStep, hP, hU, hL, alookup_aupsert_ne m u2 u _ hne]
      | some prev =>
        cases hy : pyStrLe (yearOf r) prev.year with
        | true => simp [effStep, hP, hU, hL, hy]
        | false => simp [effStep, hP, hU, hL, hy, alookup_aupsert_ne m u2 u _ hne]

theorem effCands_cons (dep acad : String) (r : EffRow) (rest : List EffRow) (u : String) :
    effCands dep acad (r :: rest) u =
      if effPasses dep acad r = true ∧ uaiOf r = some u
      then r :: effCands dep acad rest u else effCands dep acad rest u := by
  by_cases hc : effPasses dep acad r = true ∧ uaiOf r = some u
  · simp [effCands, List.filter_cons, hc.1, hc.2, if_pos hc]
  · rw [if_neg hc]
    have hfalse : (effPasses dep acad r && decide (uaiOf r = some u)) = false := by
      rcases not_and_or.mp hc with h1 | h2
      · have : effPasses dep acad r = false := by
          cases hPP : effPasses dep acad r
          · rfl
          · exact absurd hPP h1
        simp [this]
      · simp [decide_eq_false h2]
    simp [effCands, List.filter_cons, hfalse]


theorem effStep_mem (hasS hasU : Bool) (dep acad : String) (m : List (String × EffRec))
    (r : EffRow) (p : String × EffRec) (hp : p ∈ effStep hasS hasU dep acad m r) :
    p ∈ m ∨ ∃ u, uaiOf r = some u ∧ p.1 = u := by
  cases hP : effPasses dep acad r with
  | false =>
    rw [effStep] at hp
    simp only [hP] at hp
    simp at hp
    exact Or.inl hp
  | true =>
    cases hU : uaiOf r with
    | none =>
      simp only [effStep, hP, hU] at hp
      simp at hp
      exact Or.inl hp
    | some u =>
      cases hL : alookup m u with
      | none =>
        simp only [effStep, hP, hU, hL] at hp
        simp at hp
        rcases mem_aupsert m u _ p hp with rfl | hp'
        · exact Or.inr ⟨u, rfl, rfl⟩
        · exact Or.inl hp'
      | some prev =>
        cases hy : pyStrLe (yearOf r) prev.year with
        | true =>
          simp only [effStep, hP, hU, hL, hy] at hp
          simp at hp
          exact Or.inl hp
        | false =>
          simp only [effStep, hP, hU, hL, hy] at hp
          simp at hp
          rcases mem_aupsert m u _ p hp with rfl | hp'
          · exact Or.inr ⟨u, rfl, rfl⟩
          · exact Or.inl hp'

theorem uaiOf_ne_empty (r : EffRow) (u : String) (h : uaiOf r = some u) : u ≠ "" := by
  intro hu
  subst hu
  rw [uaiOf] at h
  cases hru : r.uai with
  | none => rw [hru] at h; simp [truthyOpt] at h
  | some s =>
    rw [hru] at h
    by_cases hs : s = ""
    · simp [truthyOpt, hs] at h
    · simp [truthyOpt, hs] at h

theorem charListLe_refl (a : List Char) : charListLe a a = true := by
  induction a with
  | nil => rfl
  | cons c cs ih => simp [charListLe, Nat.lt_irrefl, ih]

theorem pyStrLe_refl (a : String) : pyStrLe a a = true := charListLe_refl a.data

theorem charListLe_trans (a : List Char) :
    ∀ b c, charListLe a b = true → charListLe b c = true → charListLe a c = true := by
  induction a with
  | nil => intro b c _ _; rfl
  | cons x as ih =>
    intro b c h1 h2
    cases b with
    | nil => simp [charListLe] at h1
    | cons y bs =>
      cases c with
      | nil => simp [charListLe] at h2
      | cons z cs =>
        by_cases hxy : x.toNat < y.toNat
        · by_cases hyz : y.toNat < z.toNat
          · simp [charListLe, Nat.lt_trans hxy hyz]
          · by_cases hzy : z.toNat < y.toNat
            · simp [charListLe, hyz, hzy] at h2
            · have hyzE : y.toNat = z.toNat := Nat.le_antisymm (Nat.le_of_not_lt hzy) (Nat.le_of_not_lt hyz)
              simp [charListLe, hyzE ▸ hxy]
        · by_cases hyx : y.toNat < x.toNat
          · simp [charListLe, hxy, hyx] at h1
          · have hxyE : x.toNat = y.toNat := Nat.le_antisymm (Nat.le_of_not_lt hyx) (Nat.le_of_not_lt hxy)
            simp only [charListLe, if_neg hxy, if_neg hyx] at h1
            by_cases hyz : y.toNat < z.toNat
            · simp [charListLe, hxyE ▸ hyz]
            · by_cases hzy : z.toNat < y.toNat
              · simp [charListLe, hyz, hzy] at h2
              · simp only [charListLe, if_neg hyz, if_neg hzy] at h2
                have h3 : ¬ x.toNat < z.toNat := by
                  rw [hxyE]; exact hyz
                have h4 : ¬ z.toNat < x.toNat := by
                  rw [hxyE]; exact hzy
                simp only [charListLe, if_neg h3, if_neg h4]
                exact ih bs cs h1 h2

theorem pyStrLe_trans (a b c : String) (h1 : pyStrLe a b = true) (h2 : pyStrLe b c = true) :
    pyStrLe a c = true := charListLe_trans a.data b.data c.data h1 h2

theorem charListLe_total (a : List Char) :
    ∀ b, charListLe a b = false → charListLe b a = true := by
  induction a with
  | nil => intro b h; simp [charListLe] at h
  | cons x as ih =>
    intro b h
    cases b with
    | nil => rfl
    | cons y bs =>
      by_cases hxy : x.toNat < y.toNat
      · simp [charListLe, hxy] at h
      · by_cases hyx : y.toNat < x.toNat
        · simp [charListLe, hyx]
        · simp only [charListLe, if_neg hxy, if_neg hyx] at h
          simp only [charListLe, if_neg hyx, if_neg hxy]
          exact ih bs h

theorem pyStrLe_total (a b : String) (h : pyStrLe a b = false) : pyStrLe b a = true :=
  charListLe_total a.data b.data h

theorem loadEff_aux (hasS hasU : Bool) (dep acad : String) (rows : List EffRow) :
    ∀ m : List (String × EffRec), (m.map Prod.fst).Nodup →
      ((List.foldl (effStep hasS hasU dep acad) m rows).map Prod.fst).Nodup ∧
      ∀ u rec, alookup (List.foldl (effStep hasS hasU dep acad) m rows) u = some rec →
        (alookup m u = some rec ∧
         ∀ r ∈ effCands dep acad rows u, pyStrLe (yearOf r) rec.year = true) ∨
        ((∃ r, r ∈ effCands dep acad rows u ∧ rec = mkEffRec hasS hasU r) ∧
         (∀ r ∈ effCands dep acad rows u, pyStrLe (yearOf r) rec.year = true) ∧
         (∀ prev, alookup m u = some prev → pyStrLe prev.year rec.year = true)) := by
  induction rows with
  | nil =>
    intro m hm
    refine ⟨hm, fun u rec h => Or.inl ⟨h, ?_⟩⟩
    intro r hr
    simp [effCands] at hr
  | cons r rest ih =>
    intro m hm
    have hm' := effStep_nodup hasS hasU dep acad m r hm
    obtain ⟨hnd, hmain⟩ := ih (effStep hasS hasU dep acad m r) hm'
    rw [List.foldl_cons]
    refine ⟨hnd, ?_⟩
    intro u rec h
    have h' := hmain u rec h
    by_cases hc : effPasses dep acad r = true ∧ uaiOf r = some u
    · have hcand : r ∈ effCands dep acad (r :: rest) u := by
        rw [effCands_cons, if_pos hc]
        exact List.mem_cons_self r _
      have hcands : effCands dep acad (r :: rest) u = r :: effCands dep acad rest u := by
        rw [effCands_cons, if_pos hc]
      cases hL : alookup m u with
      | none =>
        have hstep : effStep hasS hasU dep acad m r = aupsert m u (mkEffRec hasS hasU r) := by
          simp [effStep, hc.1, hc.2, hL]
        rcases h' with ⟨hL', hbound⟩ | ⟨⟨r', hr', hrec⟩, hbound, hprev⟩
        · rw [hstep, alookup_aupsert_self] at hL'
          have hrec : rec = mkEffRec hasS hasU r := (Option.some_inj.mp hL').symm
          refine Or.inr ⟨⟨r, hcand, hrec⟩, ?_, ?_⟩
          · intro r2 hr2
            rw [hcands] at hr2
            rcases List.mem_cons.mp hr2 with heq | hmem
            · subst heq
              rw [hrec]
              exact pyStrLe_refl _
            · exact hbound r2 hmem
          · intro p hp
            exact Option.noConfusion hp
        · refine Or.inr ⟨⟨r', by rw [hcands]; exact List.mem_cons_of_mem _ hr', hrec⟩, ?_, ?_⟩
          · intro r2 hr2
            rw [hcands] at hr2
            rcases List.mem_cons.mp hr2 with heq | hmem
            · subst heq
              have hlk : alookup (effStep hasS hasU dep acad m r2) u
                  = some (mkEffRec hasS hasU r2) := by
                rw [hstep]; exact alookup_aupsert_self _ _ _
              exact hprev _ hlk
            · exact hbound r2 hmem
          · intro p hp
            exact Option.noConfusion hp
      | some prev =>
        cases hy : pyStrLe (yearOf r) prev.year with
        | true =>
          have hstep : effStep hasS hasU dep acad m r = m := by
            simp [effStep, hc.1, hc.2, hL, hy]
          rw [hstep] at h'
          rcases h' with ⟨hL', hbound⟩ | ⟨⟨r', hr', hrec⟩, hbound, hprev⟩
          · have hrp : rec = prev := by
              rw [hL] at hL'
              exact (Option.some_inj.mp hL').symm
            refine Or.inl ⟨by rw [hrp], ?_⟩
            intro r2 hr2
            rw [hcands] at hr2
            rcases List.mem_cons.mp hr2 with heq | hmem
            · subst heq
              rw [hrp]
              exact hy
            · exact hbound r2 hmem
          · refine Or.inr ⟨⟨r', by rw [hcands]; exact List.mem_cons_of_mem _ hr', hrec⟩, ?_, ?_⟩
            · intro r2 hr2
              rw [hcands] at hr2
              rcases List.mem_cons.mp hr2 with heq | hmem
              · subst heq
                exact pyStrLe_trans _ _ _ hy (hprev prev hL)
              · exact hbound r2 hmem
            · intro p hp
              have hpp : p = prev := (Option.some_inj.mp hp).symm
              rw [hpp]
              exact hprev prev hL
        | false =>
          have hstep : effStep hasS hasU dep acad m r = aupsert m u (mkEffRec hasS hasU r) := by
            simp [effStep, hc.1, hc.2, hL, hy]
          rcases h' with ⟨hL', hbound⟩ | ⟨⟨r', hr', hrec⟩, hbound, hprev⟩
          · rw [hstep, alookup_aupsert_self] at hL'
            have hrec : rec = mkEffRec hasS hasU r := (Option.some_inj.mp hL').symm
            refine Or.inr ⟨⟨r, hcand, hrec⟩, ?_, ?_⟩
            · intro r2 hr2
              rw [hcands] at hr2
              rcases List.mem_cons.mp hr2 with heq | hmem
              · subst heq
                rw [hrec]
                exact pyStrLe_refl _
              · exact hbound r2 hmem
            · intro p hp
              have hpp : p = prev := (Option.some_inj.mp hp).symm
              rw [hpp, hrec]
              exact pyStrLe_total _ _ hy
          · refine Or.inr ⟨⟨r', by rw [hcands]; exact List.mem_cons_of_mem _ hr', hrec⟩, ?_, ?_⟩
            · intro r2 hr2
              rw [hcands] at hr2
              rcases List.mem_cons.mp hr2 with heq | hmem
              · subst heq
                have hlk : alookup (effStep hasS hasU dep acad m r2) u
                    = some (mkEffRec hasS hasU r2) := by
                  rw [hstep]; exact alookup_aupsert_self _ _ _
                exact hprev _ hlk
              · exact hbound r2 hmem
            · intro p hp
              have hpp : p = prev := (Option.some_inj.mp hp).symm
              have hlk : alookup (effStep hasS hasU dep acad m r) u
                  = some (mkEffRec hasS hasU r) := by
                rw [hstep]; exact alookup_aupsert_self _ _ _
              have h1 := hprev _ hlk
              rw [hpp]
              exact pyStrLe_trans _ _ _ (pyStrLe_total _ _ hy) h1
    · have hcands : effCands dep acad (r :: rest) u = effCands dep acad rest u := by
        rw [effCands_cons, if_neg hc]
      have hLeq := effStep_alookup_other hasS hasU dep acad m r u hc
      rcases h' with ⟨hL', hbound⟩ | ⟨hex, hbound, hprev⟩
      · exact Or.inl ⟨hLeq ▸ hL', by rw [hcands]; exact hbound⟩
      · refine Or.inr ⟨by rw [hcands]; exact hex, by rw [hcands]; exact hbound, ?_⟩
        intro p hp
        exact hprev p (by rw [hLeq]; exact hp)

theorem foldlMin_spec (xs : List Rat) :
    ∀ a : Rat, (xs.foldl min a ∈ a :: xs) ∧ (xs.foldl min a ≤ a) ∧
      (∀ x ∈ xs, xs.foldl min a ≤ x) := by
  induction xs with
  | nil =>
    intro a
    exact ⟨List.mem_cons_self a [], le_refl a, by simp⟩
  | cons b xs ih =>
    intro a
    obtain ⟨hmem, hle, hall⟩ := ih (min a b)
    rw [List.foldl_cons]
    refine ⟨?_, ?_, ?_⟩
    · rcases List.mem_cons.mp hmem with heq | hmem2
      · rcases min_choice a b with hm | hm
        · rw [heq, hm]
          exact List.mem_cons_self a _
        · rw [heq, hm]
          exact List.mem_cons_of_mem _ (List.mem_cons_self b _)
      · exact List.mem_cons_of_mem _ (List.mem_cons_of_mem _ hmem2)
    · exact le_trans hle (min_le_left a b)
    · intro x hx
      rcases List.mem_cons.mp hx with heq | hx2
      · rw [heq]
        exact le_trans hle (min_le_right a b)
      · exact hall x hx2

theorem foldlMax_spec (xs : List Rat) :
    ∀ a : Rat, (xs.foldl max a ∈ a :: xs) ∧ (a ≤ xs.foldl max a) ∧
      (∀ x ∈ xs, x ≤ xs.foldl max a) := by
  induction xs with
  | nil =>
    intro a
    exact ⟨List.mem_cons_self a [], le_refl a, by simp⟩
  | cons b xs ih =>
    intro a
    obtain ⟨hmem, hle, hall⟩ := ih (max a b)
    rw [List.foldl_cons]
    refine ⟨?_, ?_, ?_⟩
    · rcases List.mem_cons.mp hmem with heq | hmem2
      · rcases max_choice a b with hm | hm
        · rw [heq, hm]
          exact List.mem_cons_self a _
        · rw [heq, hm]
          exact List.mem_cons_of_mem _ (List.mem_cons_self b _)
      · exact List.mem_cons_of_mem _ (List.mem_cons_of_mem _ hmem2)
    · exact le_trans (le_max_left a b) hle
    · intro x hx
      rcases List.mem_cons.mp hx with heq | hx2
      · rw [heq]
        exact le_trans (le_max_right a b) hle
      · exact hall x hx2

theorem listMin_spec (l : List Rat) (h : l ≠ []) :
    ∃ m, listMin l = some m ∧ m ∈ l ∧ ∀ x ∈ l, m ≤ x := by
  cases l with
  | nil => exact absurd rfl h
  | cons a xs =>
    obtain ⟨hmem, hle, hall⟩ := foldlMin_spec xs a
    refine ⟨xs.foldl min a, rfl, hmem, ?_⟩
    intro x hx
    rcases List.mem_cons.mp hx with heq | hx2
    · rw [heq]
      exact hle
    · exact hall x hx2

theorem listMax_spec (l : List Rat) (h : l ≠ []) :
    ∃ m, listMax l = some m ∧ m ∈ l ∧ ∀ x ∈ l, x ≤ m := by
  cases l with
  | nil => exact absurd rfl h
  | cons a xs =>
    obtain ⟨hmem, hle, hall⟩ := foldlMax_spec xs a
    refine ⟨xs.foldl max a, rfl, hmem, ?_⟩
    intro x hx
    rcases List.mem_cons.mp hx with heq | hx2
    · rw [heq]
      exact hle
    · exact hall x hx2

/-- C1: for every headcount input file and filter parameters, the mapping
returned by the headcount loader contains at most one record per school
identifier (its keys are pairwise distinct), and the retained record's
year string is the lexicographically greatest among the year strings of
all rows for that identifier that pass the department/academy/type/sector
filters. -/
theorem claim_C1 (f : EffFile) (dep acad : String) :
    ((loadEffectifsLatest f dep acad).map Prod.fst).Nodup ∧
    ∀ u rec, alookup (loadEffectifsLatest f dep acad) u = some rec →
      rec.year ∈ candYears dep acad f.rows u ∧
      ∀ y ∈ candYears dep acad f.rows u, pyStrLe y rec.year = true := by
  obtain ⟨hnd, hmain⟩ := loadEff_aux f.hasSegpaKey f.hasUlisKey dep acad f.rows [] (by simp)
  refine ⟨hnd, ?_⟩
  intro u rec h
  rcases hmain u rec h with ⟨hL, _⟩ | ⟨⟨r, hr, hrec⟩, hbound, _⟩
  · exact absurd hL (by simp [alookup])
  · constructor
    · have hy : rec.year = yearOf r := by rw [hrec]; rfl
      rw [hy]
      exact List.mem_map_of_mem yearOf hr
    · intro y hy
      rcases List.mem_map.mp hy with ⟨r2, hr2, rfl⟩
      exact hbound r2 hr2

/-- C1 witness: on a concrete file with a 2023 row and a 2024 row for the
same identifier, the retained record's year 2024 is the maximum. -/
theorem claim_C1_witness :
    w1rec.year ∈ candYears "44" "NANTES" w1file.rows "0440010B" ∧
    ∀ y ∈ candYears "44" "NANTES" w1file.rows "0440010B", pyStrLe y w1rec.year = true :=
  (claim_C1 w1file "44" "NANTES").2 "0440010B" w1rec (by decide)

/-- C2 counterexample: a qualifying row whose student-count field is the
empty string produces a retained record whose student count is 0, not
null, refuting the claim that a missing/empty field yields null. -/
theorem claim_C2_counterexample :
    c2row.eleves = some "" ∧
    (alookup (loadEffectifsLatest c2file "44" "NANTES") "0440001A").map EffRec.eleves
      = some (some 0) ∧
    some (0 : Int) ≠ (none : Option Int) :=
  ⟨rfl, by decide, by decide⟩

/-- C2 amended: every retained record's student count and cohort counts
come from `int(field or 0)` of some qualifying source row, so a nonempty
non-numeric value yields null, while a missing or empty value yields 0
(and Segpa/ULIS are null when their column is absent from the header). -/
theorem claim_C2_amended :
    (∀ (f : EffFile) (dep acad u : String) (rec : EffRec),
       alookup (loadEffectifsLatest f dep acad) u = some rec →
       ∃ r, r ∈ f.rows ∧ effPasses dep acad r = true ∧ uaiOf r = some u ∧
         rec.eleves = pyIntOr0 r.eleves ∧
         rec.segpa = (if f.hasSegpaKey then pyIntOr0 r.segpa else none) ∧
         rec.ulis = (if f.hasUlisKey then pyIntOr0 r.ulis else none)) ∧
    (∀ s : String, s ≠ "" → pyInt s = none → pyIntOr0 (some s) = none) ∧
    (∀ (s : String) (n : Int), s ≠ "" → pyInt s = some n → pyIntOr0 (some s) = some n) ∧
    pyIntOr0 none = some 0 ∧ pyIntOr0 (some "") = some 0 := by
  refine ⟨?_, ?_, ?_, rfl, by simp [pyIntOr0]⟩
  · intro f dep acad u rec h
    obtain ⟨_, hmain⟩ := loadEff_aux f.hasSegpaKey f.hasUlisKey dep acad f.rows [] (by simp)
    rcases hmain u rec h with ⟨hL, _⟩ | ⟨⟨r, hr, hrec⟩, _, _⟩
    · exact absurd hL (by simp [alookup])
    · have hr2 := hr
      simp only [effCands, List.mem_filter, Bool.and_eq_true, decide_eq_true_eq] at hr2
      refine ⟨r, hr2.1, hr2.2.1, hr2.2.2, ?_, ?_, ?_⟩
      · rw [hrec]; rfl
      · rw [hrec]; rfl
      · rw [hrec]; rfl
  · intro s hs hn
    simp [pyIntOr0, hs, hn]
  · intro s n hs hn
    simp [pyIntOr0, hs, hn]

/-- C2 amended witness: on a concrete file, the retained record's fields
arise from the source row, and a non-numeric count parses to null. -/
theorem claim_C2_amended_witness :
    (∃ r, r ∈ w2file.rows ∧ effPasses "44" "NANTES" r = true ∧ uaiOf r = some "0442000Z" ∧
       w2rec.eleves = pyIntOr0 r.eleves ∧
       w2rec.segpa = (if w2file.hasSegpaKey then pyIntOr0 r.segpa else none) ∧
       w2rec.ulis = (if w2file.hasUlisKey then pyIntOr0 r.ulis else none)) ∧
    pyIntOr0 (some "abc") = none :=
  ⟨claim_C2_amended.1 w2file "44" "NANTES" "0442000Z" w2rec (by decide),
   claim_C2_amended.2.1 "abc" (by decide) (by decide)⟩

/-- C10: the headcount loader never stores an entry under an empty school
identifier; a row whose identifier field is absent or empty is skipped by
the row step without creating or replacing anything. -/
theorem claim_C10 (f : EffFile) (dep acad : String) :
    (∀ p ∈ loadEffectifsLatest f dep acad, p.1 ≠ "") ∧
    (∀ (m : List (String × EffRec)) (r : EffRow), uaiOf r = none →
       effStep f.hasSegpaKey f.hasUlisKey dep acad m r = m) ∧
    (∀ r : EffRow, r.uai = none ∨ r.uai = some "" → uaiOf r = none) := by
  refine ⟨?_, ?_, ?_⟩
  · have key : ∀ rows (m : List (String × EffRec)), (∀ p ∈ m, p.1 ≠ "") →
        ∀ p ∈ List.foldl (effStep f.hasSegpaKey f.hasUlisKey dep acad) m rows, p.1 ≠ "" := by
      intro rows
      induction rows with
      | nil =>
        intro m hm
        simpa using hm
      | cons r rest ih =>
        intro m hm
        rw [List.foldl_cons]
        apply ih
        intro p hp
        rcases effStep_mem f.hasSegpaKey f.hasUlisKey dep acad m r p hp with hp' | ⟨u, hu, hpu⟩
        · exact hm p hp'
        · rw [hpu]
          exact uaiOf_ne_empty r u hu
    exact fun p hp => key f.rows [] (by simp) p hp
  · intro m r h
    cases hP : effPasses dep acad r with
    | false => simp [effStep, hP]
    | true => simp [effStep, hP, h]
  · intro r h
    rcases h with h | h <;> simp [uaiOf, truthyOpt, h]

/-- C10 witness: a stored key is nonempty, and a row with an empty
identifier leaves the mapping unchanged. -/
theorem claim_C10_witness :
    (("0443000C" : String) ≠ "") ∧
    effStep true true "44" "NANTES" [] w10bad = [] :=
  ⟨(claim_C10 w10file "44" "NANTES").1 ("0443000C", w10rec) (by decide),
   (claim_C10 ⟨[], true, true⟩ "44" "NANTES").2.1 [] w10bad (by decide)⟩

/-- C3 counterexample: an indicator row whose teaching-FTE field is
present but empty produces a merged record with teaching FTE 0.0, not
null, refuting the claim for the teaching-FTE field. -/
theorem claim_C3_counterexample :
    c3row.etpEns = some "" ∧
    (mergeData [c3row] [] []).1.map MergedRec.etp_enseignants = [some 0] ∧
    some (0 : Rat) ≠ (none : Option Rat) :=
  ⟨rfl, by decide, by decide⟩

/-- C3 amended: the merged staffing FTE is null for an empty or
non-numeric field and otherwise the parsed float; the merged teaching FTE
is null only for a nonempty non-numeric field, while an empty or missing
field yields 0.0 (not null); rows are always emitted, one per indicator
row. -/
theorem claim_C3_amended :
    (∀ (ind : List IndRow) (emap : List (String × EffRec)) (imap : List (String × IpsRec)),
       (mergeData ind emap imap).1.map MergedRec.aed_etp = ind.map aedOf ∧
       (mergeData ind emap imap).1.map MergedRec.etp_enseignants = ind.map etpEnsOf) ∧
    (∀ r : IndRow, r.aed = none ∨ r.aed = some "" → aedOf r = none) ∧
    (∀ (r : IndRow) (s : String), r.aed = some s → s ≠ "" → aedOf r = pyFloat s) ∧
    (∀ r : IndRow, r.etpEns = none ∨ r.etpEns = some "" → etpEnsOf r = some 0) ∧
    (∀ (r : IndRow) (s : String), r.etpEns = some s → s ≠ "" → etpEnsOf r = pyFloat s) := by
  refine ⟨?_, ?_, ?_, ?_, ?_⟩
  · intro ind emap imap
    constructor
    · show (ind.map (mkMerged emap imap)).map MergedRec.aed_etp = ind.map aedOf
      rw [List.map_map]
      rfl
    · show (ind.map (mkMerged emap imap)).map MergedRec.etp_enseignants = ind.map etpEnsOf
      rw [List.map_map]
      rfl
  · intro r h
    rcases h with h | h <;> simp [aedOf, parseFloatField, h]
  · intro r s hs hne
    simp [aedOf, parseFloatField, hs, hne]
  · intro r h
    rcases h with h | h <;> simp [etpEnsOf, h]
  · intro r s hs hne
    simp [etpEnsOf, hs, hne]

/-- C3 amended witness: concrete parses for a numeric staffing FTE and a
non-numeric teaching FTE, and the per-row field correspondence. -/
theorem claim_C3_amended_witness :
    aedOf w3row = pyFloat "12.5" ∧ etpEnsOf w3row = pyFloat "abc" ∧
    (mergeData [w3row] [] []).1.map MergedRec.aed_etp = [w3row].map aedOf :=
  ⟨claim_C3_amended.2.2.1 w3row "12.5" rfl (by decide),
   claim_C3_amended.2.2.2.2 w3row "abc" rfl (by decide),
   (claim_C3_amended.1 [w3row] [] []).1⟩

/-- C4 counterexample: with a single staffing FTE of 0.125, the summary
minimum is the rounded 0.12, not the exact minimum 0.125, refuting the
claim that the summary contains the exact sum, minimum and maximum. -/
theorem claim_C4_counterexample :
    validAed (mergeData [c4row] [] []).1 = [(1 : Rat)/8] ∧
    (mergeData [c4row] [] []).2.aed_min = some ((3 : Rat)/25) ∧
    ((3 : Rat)/25) ≠ (1 : Rat)/8 :=
  ⟨by with_unfolding_all decide, by with_unfolding_all decide, by with_unfolding_all decide⟩

/-- C4 amended: over the non-null values only, the summary holds for the
staffing FTE the sum, mean, minimum and maximum each rounded to 2
decimals, and for the teaching FTE only the sum and the mean rounded to 2
decimals (the summary has no teaching-FTE minimum or maximum field). -/
theorem claim_C4_amended (recs : List MergedRec) (iY eY pY : Option String) :
    (validAed recs ≠ [] →
      (computeSummary recs iY eY pY).aed_total = some (pyRound (validAed recs).sum 2) ∧
      (computeSummary recs iY eY pY).aed_moyen
        = some (pyRound ((validAed recs).sum / ((validAed recs).length : Rat)) 2) ∧
      (∃ m, m ∈ validAed recs ∧ (∀ x ∈ validAed recs, m ≤ x) ∧
        (computeSummary recs iY eY pY).aed_min = some (pyRound m 2)) ∧
      (∃ m, m ∈ validAed recs ∧ (∀ x ∈ validAed recs, x ≤ m) ∧
        (computeSummary recs iY eY pY).aed_max = some (pyRound m 2))) ∧
    (validEtpEns recs ≠ [] →
      (computeSummary recs iY eY pY).etp_ens_total
        = some (pyRound (validEtpEns recs).sum 2) ∧
      (computeSummary recs iY eY pY).etp_ens_moyen
        = some (pyRound ((validEtpEns recs).sum / ((validEtpEns recs).length : Rat)) 2)) := by
  constructor
  · intro hne
    have hne' : (validAed recs).isEmpty = false := by
      cases h : validAed recs with
      | nil => exact absurd h hne
      | cons a l => simp
    refine ⟨?_, ?_, ?_, ?_⟩
    · simp [computeSummary, hne']
    · simp [computeSummary, hne']
    · obtain ⟨m, hm, hmem, hall⟩ := listMin_spec (validAed recs) hne
      exact ⟨m, hmem, hall, by simp [computeSummary, hm]⟩
    · obtain ⟨m, hm, hmem, hall⟩ := listMax_spec (validAed recs) hne
      exact ⟨m, hmem, hall, by simp [computeSummary, hm]⟩
  · intro hne
    have hne' : (validEtpEns recs).isEmpty = false := by
      cases h : validEtpEns recs with
      | nil => exact absurd h hne
      | cons a l => simp
    exact ⟨by simp [computeSummary, hne'], by simp [computeSummary, hne']⟩

/-- C4 amended witness: on a one-record list with staffing FTE 0.125 the
summary minimum is the rounding of that minimum. -/
theorem claim_C4_amended_witness :
    (computeSummary [w4rec] none none none).aed_min = some (pyRound ((1 : Rat)/8) 2) := by
  obtain ⟨m, hmem, hall, hmin⟩ :=
    ((claim_C4_amended [w4rec] none none none).1 (by with_unfolding_all decide)).2.2.1
  have hv : validAed [w4rec] = [(1 : Rat)/8] := by with_unfolding_all decide
  rw [hv] at hmem
  have hm : m = (1 : Rat)/8 := by simpa using hmem
  rw [hm] at hmin
  exact hmin

/-- C5: the indicator loader keeps a row only when its department code
equals the parameter by exact string comparison, while the headcount
filter compares both sides zero-padded to 3 digits; hence parameter 44
rejects an indicator row with code 044 but accepts the same headcount
row. -/
theorem claim_C5 :
    (∀ (rows : List IndRow) (dep acad npre : String) (r : IndRow),
       r ∈ loadIndicateurs rows dep acad npre → r.dep = some dep) ∧
    (∀ (dep acad : String) (r : EffRow), effPasses dep acad r = true →
       pyZfill (r.dep.getD "") 3 = padZeroFmt dep 3) ∧
    loadIndicateurs [c5ind] "44" "NANTES" "college" = [] ∧
    (alookup (loadEffectifsLatest c5file "44" "NANTES") "0440001A").isSome = true ∧
    effPasses "44" "NANTES" c5eff = true := by
  refine ⟨?_, ?_, by decide, by decide, by decide⟩
  · intro rows dep acad npre r hr
    simp only [loadIndicateurs] at hr
    have h := (List.mem_filter.mp hr).2
    simp only [indPasses, Bool.and_eq_true, decide_eq_true_eq] at h
    exact h.1.1.1
  · intro dep acad r h
    simp only [effPasses, Bool.and_eq_true, decide_eq_true_eq] at h
    exact h.1.1.1

/-- C5 witness: a row with code 44 is kept by the indicator loader (so
its code is exactly the parameter), and the padded comparison for the
044 headcount row. -/
theorem claim_C5_witness :
    w5ind.dep = some "44" ∧ pyZfill (c5eff.dep.getD "") 3 = padZeroFmt "44" 3 :=
  ⟨claim_C5.1 [w5ind] "44" "NANTES" "coll" w5ind (by decide),
   claim_C5.2.1 "44" "NANTES" c5eff (by decide)⟩

/-- C6: the rendered per-row students-per-staffing-FTE ratio is null
whenever the staffing FTE is null, zero or negative, or the student count
is null; otherwise it is exactly students divided by staffing FTE. -/
theorem claim_C6 (rec : MergedRec) :
    ((rec.aed_etp = none ∨ (∃ a, rec.aed_etp = some a ∧ a ≤ 0) ∨ rec.eleves = none) →
      ratioOf rec = none) ∧
    (∀ (e : Int) (a : Rat), rec.eleves = some e → rec.aed_etp = some a → 0 < a →
      ratioOf rec = some ((e : Rat) / a)) := by
  constructor
  · intro h
    rcases h with h | ⟨a, ha, hle⟩ | h
    · cases he : rec.eleves <;> simp [ratioOf, h, he]
    · cases he : rec.eleves <;> simp [ratioOf, ha, he, not_lt.mpr hle]
    · cases ha : rec.aed_etp <;> simp [ratioOf, h, ha]
  · intro e a he ha hpos
    simp [ratioOf, he, ha, hpos]

/-- C6 witness: 300 students over 12.5 staffing FTE gives ratio 24. -/
theorem claim_C6_witness : ratioOf w6rec = some 24 := by
  have h := (claim_C6 w6rec).2 300 ((25 : Rat)/2) rfl rfl (by norm_num)
  rw [h]
  norm_num

/-- C7: whenever a summary field's list of non-null contributing values
is empty, the corresponding total, mean, minimum and maximum in the
summary are null. -/
theorem claim_C7 (ind : List IndRow) (emap : List (String × EffRec))
    (imap : List (String × IpsRec)) :
    (validAed (mergeData ind emap imap).1 = [] →
      (mergeData ind emap imap).2.aed_total = none ∧
      (mergeData ind emap imap).2.aed_moyen = none ∧
      (mergeData ind emap imap).2.aed_min = none ∧
      (mergeData ind emap imap).2.aed_max = none) ∧
    (validEtpEns (mergeData ind emap imap).1 = [] →
      (mergeData ind emap imap).2.etp_ens_total = none ∧
      (mergeData ind emap imap).2.etp_ens_moyen = none) ∧
    (validEleves (mergeData ind emap imap).1 = [] →
      (mergeData ind emap imap).2.eleves_total = none) ∧
    (validSegpa (mergeData ind emap imap).1 = [] →
      (mergeData ind emap imap).2.segpa_total = none) ∧
    (validUlis (mergeData ind emap imap).1 = [] →
      (mergeData ind emap imap).2.ulis_total = none) ∧
    (validIps (mergeData ind emap imap).1 = [] →
      (mergeData ind emap imap).2.ips_moyen = none ∧
      (mergeData ind emap imap).2.ips_min = none ∧
      (mergeData ind emap imap).2.ips_max = none) := by
  refine ⟨?_, ?_, ?_, ?_, ?_, ?_⟩ <;> intro h <;>
    simp only [mergeData] at h ⊢ <;>
    simp [computeSummary, h, listMin, listMax]

/-- C7 witness: with no records at all, every aggregate is null. -/
theorem claim_C7_witness :
    (mergeData [] [] []).2.aed_total = none ∧ (mergeData [] [] []).2.ips_min = none :=
  ⟨((claim_C7 [] [] []).1 rfl).1, (((claim_C7 [] [] []).2.2.2.2.2) rfl).2.1⟩

/-- C8: with no social-index path the loader returns the empty mapping,
every merged record's social-index value and deviation are null, and the
summary's social-index mean, min and max are null. -/
theorem claim_C8 (dep acad dep2 acad2 : String) (ind : List IndRow)
    (emap : List (String × EffRec)) :
    loadIps none dep acad = [] ∧
    ((mergeData ind emap (loadIps none dep2 acad2)).1.all
       (fun rec => decide (rec.ips = none ∧ rec.ips_ecart = none)) = true) ∧
    (mergeData ind emap (loadIps none dep2 acad2)).2.ips_moyen = none ∧
    (mergeData ind emap (loadIps none dep2 acad2)).2.ips_min = none ∧
    (mergeData ind emap (loadIps none dep2 acad2)).2.ips_max = none := by
  have hips : ∀ r : IndRow, (mkMerged emap [] r).ips = none ∧
      (mkMerged emap [] r).ips_ecart = none := by
    intro r
    cases hu : r.uai <;> simp [mkMerged, optLookup, alookup, hu]
  have hrecs : ∀ rec ∈ (mergeData ind emap (loadIps none dep2 acad2)).1,
      rec.ips = none ∧ rec.ips_ecart = none := by
    intro rec hrec
    have hmem : rec ∈ ind.map (mkMerged emap []) := by
      simpa [mergeData, loadIps] using hrec
    rcases List.mem_map.mp hmem with ⟨r, _, rfl⟩
    exact hips r
  have hvips : validIps (mergeData ind emap (loadIps none dep2 acad2)).1 = [] := by
    simp only [validIps]
    rw [List.filterMap_eq_nil_iff]
    exact fun rec hrec => (hrecs rec hrec).1
  refine ⟨rfl, ?_, ?_, ?_, ?_⟩
  · rw [List.all_eq_true]
    intro rec hrec
    exact decide_eq_true (hrecs rec hrec)
  · simp only [mergeData] at hvips ⊢
    simp [computeSummary, hvips]
  · simp only [mergeData] at hvips ⊢
    simp [computeSummary, hvips, listMin]
  · simp only [mergeData] at hvips ⊢
    simp [computeSummary, hvips, listMax]

/-- C9 counterexample: feeding the merger two indicator rows with the
same school identifier produces two merged records with that identifier,
refuting uniqueness for every input. -/
theorem claim_C9_counterexample :
    (mergeData [c9row, c9row] [] []).1.map MergedRec.uai
      = [some "0440002B", some "0440002B"] ∧
    ¬ ((mergeData [c9row, c9row] [] []).1.map MergedRec.uai).Nodup :=
  ⟨by decide, by decide⟩

/-- C9 amended: the merger emits exactly one record per indicator row,
preserving the identifier, so the output identifiers are unique exactly
when the qualifying indicator rows' identifiers are pairwise distinct;
numeric fields are parsed to a number or null by construction. -/
theorem claim_C9_amended (ind : List IndRow) (emap : List (String × EffRec))
    (imap : List (String × IpsRec)) :
    (mergeData ind emap imap).1.map MergedRec.uai = ind.map IndRow.uai ∧
    ((ind.map IndRow.uai).Nodup → ((mergeData ind emap imap).1.map MergedRec.uai).Nodup) ∧
    (mergeData ind emap imap).1.length = ind.length := by
  have hmap : (mergeData ind emap imap).1.map MergedRec.uai = ind.map IndRow.uai := by
    show (ind.map (mkMerged emap imap)).map MergedRec.uai = ind.map IndRow.uai
    rw [List.map_map]
    rfl
  refine ⟨hmap, ?_, ?_⟩
  · intro h
    rw [hmap]
    exact h
  · show (ind.map (mkMerged emap imap)).length = ind.length
    simp

/-- C9 amended witness: two rows with distinct identifiers give an output
with pairwise distinct identifiers. -/
theorem claim_C9_amended_witness :
    ((mergeData [w9rowA, w9rowB] [] []).1.map MergedRec.uai).Nodup :=
  (claim_C9_amended [w9rowA, w9rowB] [] []).2.1 (by decide)
